import Mathlib

/-!
Verification development for the Slowpro performance-capture tool
(`slowpro.py`) and its report generator (`report_generator.py`).

The Python sources are shallowly embedded below: dictionaries become
association lists that preserve insertion order, Python floats become
exact rationals (`ℚ`), a value read with `dict.get(key, default)`
becomes an `Option` field read with `Option.getD`, and I/O failure
while writing a file is modelled by a caller-supplied predicate on
file paths.  CSV cells are modelled as the written values themselves
(a small inductive type) rather than their decimal renderings.
-/

/-- Ordered-dictionary lookup: first binding of the key, if any. -/
def lookupA {κ β : Type} [DecidableEq κ] : List (κ × β) → κ → Option β
  | [], _ => none
  | (q, v) :: rest, k => if q = k then some v else lookupA rest k

/-- Ordered-dictionary update: replace the first binding of `k` by
`f` of its value, or append `(k, f d)` when `k` is absent.  This is the
shape of every `dict[k] = ...` / `dict.get(k, d)` update in the source:
insertion order of keys is preserved, existing keys stay in place. -/
def updateAssoc {κ β : Type} [DecidableEq κ] : List (κ × β) → κ → β → (β → β) → List (κ × β)
  | [], k, d, f => [(k, f d)]
  | (q, v) :: rest, k, d, f =>
      if q = k then (q, f v) :: rest else (q, v) :: updateAssoc rest k d f

/-- First-some choice on options (used to state "last write wins"). -/
def orO {α : Type} : Option α → Option α → Option α
  | some v, _ => some v
  | none, b => b

/-- Python `str.startswith`: prefix test on the character lists. -/
def pyStarts (s p : String) : Bool := p.data.isPrefixOf s.data

/-- Helper for substring search: does `sub` occur at some position? -/
def subAt (sub : List Char) : List Char → Bool
  | [] => sub.isEmpty
  | c :: t => sub.isPrefixOf (c :: t) || subAt sub t

/-- Python `sub in s` on strings: substring occurrence test. -/
def strHasSub (s sub : String) : Bool := subAt sub.data s.data

/-- Python `str.lower` (ASCII case folding, which is all the source
compares against). -/
def pyLower (s : String) : String := String.mk (s.data.map Char.toLower)

/-- Python `round(x, 2)`: round to two decimal fraction digits.
CPython rounds half-to-even on floats; this model rounds ties up.  No
theorem below depends on the tie direction, only on `round2 0 = 0` and
on exactness elsewhere. -/
def round2 (q : ℚ) : ℚ := (round (q * 100) : ℚ) / 100

/-- Python `statistics.mean` (guarded against `[]` by every caller). -/
def pymean (l : List ℚ) : ℚ := l.sum / l.length

/-- Stable ascending insertion for `pymedian`'s `sorted(data)`. -/
def insAsc (e : ℚ) : List ℚ → List ℚ
  | [] => [e]
  | x :: xs => if x < e then x :: insAsc e xs else e :: x :: xs

/-- Ascending sort of rationals (stability is irrelevant on `ℚ`). -/
def sortAscQ (l : List ℚ) : List ℚ := l.foldr insAsc []

/-- Python `statistics.median`: middle of the ascending sort, or the
mean of the two middle elements for even length. -/
def pymedian (l : List ℚ) : ℚ :=
  let s := sortAscQ l
  let n := l.length
  if n % 2 = 1 then s.getD (n / 2) 0
  else ((s.getD (n / 2 - 1) 0) + s.getD (n / 2) 0) / 2

/-- Python `max` on a list (callers guard against `[]`). -/
def pymax : List ℚ → ℚ
  | [] => 0
  | x :: xs => xs.foldl max x

/-- Python `min` on a list (callers guard against `[]`). -/
def pymin : List ℚ → ℚ
  | [] => 0
  | x :: xs => xs.foldl min x

/-- Stable descending insertion by key `k`: keep walking past strictly
larger keys, settle in front of the first key `≤ k e`.  Inserting
original-earlier elements with `List.foldr` therefore keeps ties in
original order, exactly like CPython's stable `sorted(..., reverse=True)`. -/
def insDesc {α : Type} (k : α → ℚ) (e : α) : List α → List α
  | [] => [e]
  | x :: xs => if k e < k x then x :: insDesc k e xs else e :: x :: xs

/-- Stable descending sort by key `k`, the model of
`sorted(xs, key=k, reverse=True)` (report_generator.py:249-250). -/
def sortDescBy {α : Type} (k : α → ℚ) (l : List α) : List α := l.foldr (insDesc k) []

/-- One captured network event (slowpro.py:176-190), also the shape of
a record reloaded from a session JSON file.  Fields that the analytics
pass reads with `dict.get(key, default)` are `Option`s so that reloaded
records may lack them; the capture path always populates all of them. -/
structure NetworkEvent where
  url : String
  domain : Option String
  timestamp : String
  type : String
  method : String
  status : Option Int
  response_time_ms : Option ℚ
  response_size : Option ℚ
  content_type : String
  request_id : String
  initiator : String
  resource_type : Option String
  start_time : ℚ
deriving DecidableEq, Inhabited

/-- One raw performance-timeline entry as assembled by the injected
script (slowpro.py:149-167). -/
structure RawEntry where
  name : String
  initiatorType : String
  duration : ℚ
  responseStart : ℚ
  responseEnd : ℚ
  transferSize : ℚ
  entryType : String
  startTime : ℚ
  entryId : String
deriving DecidableEq, Inhabited

/-- `Slowpro.get_domain` (slowpro.py:116-132): prepend `https://` when
the scheme is missing, then take `urlparse(url).netloc` — for an
http(s) URL that is the text between the scheme and the next `/`, `?`
or `#` — falling back to `"unknown"` when empty. -/
def getDomainOf (url : String) : String :=
  let u := if pyStarts url "http://" || pyStarts url "https://" then url else "https://" ++ url
  let rest := if pyStarts u "https://" then String.mk (u.data.drop 8) else String.mk (u.data.drop 7)
  let netloc := String.mk (rest.data.takeWhile fun c => !(c == '/') && !(c == '?') && !(c == '#'))
  if netloc = "" then "unknown" else netloc

/-- `Slowpro._guess_content_type` (slowpro.py:203-227): first matching
extension group wins, in the source's dictionary order. -/
def guessContentType (url : String) : String :=
  let u := pyLower url
  if strHasSub u ".js" || strHasSub u "javascript" then "application/javascript"
  else if strHasSub u ".css" || strHasSub u "stylesheet" then "text/css"
  else if strHasSub u ".png" || strHasSub u ".jpg" || strHasSub u ".jpeg" ||
      strHasSub u ".gif" || strHasSub u ".svg" || strHasSub u ".webp" then "image/*"
  else if strHasSub u ".json" || strHasSub u "api/" || strHasSub u "/api" then "application/json"
  else if strHasSub u ".html" then "text/html"
  else "unknown"

/-- `Slowpro._map_initiator_to_type` (slowpro.py:229-248). -/
def mapInitiatorToType (initiator : String) : String :=
  let k := pyLower initiator
  if k = "navigation" then "Document"
  else if k = "script" then "Script"
  else if k = "link" then "Stylesheet"
  else if k = "img" then "Image"
  else if k = "xmlhttprequest" then "XHR"
  else if k = "fetch" then "Fetch"
  else if k = "other" then "Other"
  else "Other"

/-- Conversion of one raw entry into a `NetworkEvent`
(slowpro.py:176-190).  `now` stands for `datetime.now().isoformat()`.
`method` is hard-coded `'GET'` and `status` hard-coded `200` because
the performance API exposes neither. -/
def entryToEvent (now : String) (e : RawEntry) : NetworkEvent where
  url := e.name
  domain := some (getDomainOf e.name)
  timestamp := now
  type := "network_request"
  method := "GET"
  status := some 200
  response_time_ms := some (round2 e.duration)
  response_size := some e.transferSize
  content_type := guessContentType e.name
  request_id := e.entryId
  initiator := e.initiatorType
  resource_type := some (mapInitiatorToType e.initiatorType)
  start_time := e.startTime

/-- `Slowpro.get_network_requests_from_browser` (slowpro.py:134-201),
happy path: keep the entries whose `name` starts with `http` and
convert each. -/
def getNetworkRequests (now : String) (entries : List RawEntry) : List NetworkEvent :=
  (entries.filter fun e => pyStarts e.name "http").map (entryToEvent now)

/-- The capture-session state mutated by `monitor_network_activity`:
the dedup set `processed` (`processed_request_ids`) and the per-domain
buffers `performance_data`. -/
structure CaptureState where
  processed : List String
  performance_data : List (String × List NetworkEvent)
deriving DecidableEq, Inhabited

/-- Fresh state at session start: empty dedup set, empty buffers. -/
def initialCaptureState : CaptureState := ⟨[], []⟩

/-- The per-tick dedup pass (slowpro.py:278-284): walk the tick's
requests in order, keep the ones whose `request_id` is not yet in the
set, adding each kept id to the set as it is kept.  Returns the new
requests and the grown set. -/
def dedupNew (processed : List String) : List NetworkEvent → List NetworkEvent × List String
  | [] => ([], processed)
  | e :: es =>
      if e.request_id ∈ processed then dedupNew processed es
      else
        let p := dedupNew (e.request_id :: processed) es
        (e :: p.1, p.2)

/-- Routing one admitted request into its domain bucket
(slowpro.py:287-292).  The capture path always populates `domain`; the
`getD` mirrors the record field read and is dead on that path. -/
def storeRequest (pd : List (String × List NetworkEvent)) (e : NetworkEvent) :
    List (String × List NetworkEvent) :=
  updateAssoc pd (e.domain.getD "unknown") [] (fun bucket => bucket ++ [e])

/-- One successful polling tick of `monitor_network_activity`
(slowpro.py:270-302): dedup the fetched requests, then append each new
one to its bucket.  (The flush the tick then triggers does not touch
these buffers.) -/
def processTick (st : CaptureState) (entries : List NetworkEvent) : CaptureState :=
  let p := dedupNew st.processed entries
  { processed := p.2, performance_data := p.1.foldl storeRequest st.performance_data }

/-- A whole monitoring run: fold the ticks' request lists in order. -/
def runTicks (st : CaptureState) (ticks : List (List NetworkEvent)) : CaptureState :=
  ticks.foldl processTick st

/-- The `request_id`s of the stored corpus, buckets flattened in order. -/
def bucketIds : List (String × List NetworkEvent) → List String
  | [] => []
  | b :: rest => (b.2.map fun e => e.request_id) ++ bucketIds rest

/-- `Slowpro.CSV_FIELDNAMES` (slowpro.py:59-63). -/
def CSV_FIELDNAMES : List String :=
  ["url", "domain", "timestamp", "type", "method", "status",
   "response_time_ms", "response_size", "content_type",
   "request_id", "initiator", "resource_type"]

/-- One written CSV cell, kept as the value handed to the CSV writer
(a missing field is written as the empty string, slowpro.py:392). -/
inductive Cell
  | str (s : String)
  | num (q : ℚ)
  | int (z : Int)
deriving DecidableEq, Inhabited

/-- The cell written for `field` of row `r`: `row.get(field, '')`
(slowpro.py:392) over the fixed field list. -/
def csvCell (r : NetworkEvent) (field : String) : Cell :=
  if field = "url" then .str r.url
  else if field = "domain" then (match r.domain with | some d => .str d | none => .str "")
  else if field = "timestamp" then .str r.timestamp
  else if field = "type" then .str r.type
  else if field = "method" then .str r.method
  else if field = "status" then (match r.status with | some z => .int z | none => .str "")
  else if field = "response_time_ms" then
    (match r.response_time_ms with | some q => .num q | none => .str "")
  else if field = "response_size" then
    (match r.response_size with | some q => .num q | none => .str "")
  else if field = "content_type" then .str r.content_type
  else if field = "request_id" then .str r.request_id
  else if field = "initiator" then .str r.initiator
  else if field = "resource_type" then
    (match r.resource_type with | some t => .str t | none => .str "")
  else .str ""

/-- One CSV data row: the twelve fixed columns in order. -/
def csvRow (r : NetworkEvent) : List Cell := CSV_FIELDNAMES.map (csvCell r)

/-- Full CSV file body: header row then one row per buffered event
(slowpro.py:387-393). -/
def csvRowsOf (data : List NetworkEvent) : List (List Cell) :=
  CSV_FIELDNAMES.map Cell.str :: data.map csvRow

/-- Parsed content of one persisted file. -/
inductive FileContent
  | json (events : List NetworkEvent)
  | csv (rows : List (List Cell))
deriving DecidableEq, Inhabited

/-- The on-disk store under the output root, keyed by relative path. -/
abbrev FS := List (String × FileContent)

/-- Overwrite (or create) the file at path `p`. -/
def fsSet (fs : FS) (p : String) (c : FileContent) : FS :=
  updateAssoc fs p c (fun _ => c)

/-- Read the file at path `p`, if present. -/
def fsGet (fs : FS) (p : String) : Option FileContent := lookupA fs p

/-- Path of an origin's JSON file: `<domain>/session_<id>.json`
(slowpro.py:375-379). -/
def jsonPath (sid domain : String) : String := domain ++ "/session_" ++ sid ++ ".json"

/-- Path of an origin's CSV file: `<domain>/session_<id>.csv`
(slowpro.py:380). -/
def csvPath (sid domain : String) : String := domain ++ "/session_" ++ sid ++ ".csv"

/-- The process state `save_data` works on: the fixed session id, the
in-memory buffers, and the output-directory contents. -/
structure SlowproState where
  session_start : String
  performance_data : List (String × List NetworkEvent)
  files : FS
deriving DecidableEq, Inhabited

/-- Writing the two files of one origin (slowpro.py:382-393).  `fails`
says which path raises `OSError` when opened for writing; the JSON file
is written first, so a CSV failure leaves the fresh JSON in place. -/
def writeOriginFiles (fails : String → Bool) (sid : String) (fs : FS) (domain : String)
    (data : List NetworkEvent) : FS × Bool :=
  let jp := jsonPath sid domain
  let cp := csvPath sid domain
  if fails jp then (fs, false)
  else
    let fs1 := fsSet fs jp (.json data)
    if fails cp then (fs1, false)
    else (fsSet fs1 cp (.csv (csvRowsOf data)), true)

/-- The per-origin loop of `save_data` (slowpro.py:371-393): skip empty
buffers, write each origin's two files in buffer order.  The single
`try` wrapping the whole loop (slowpro.py:370/399-401) means the first
raising write ends the loop and the function raises `DataError`
(`false` here); origins after it are not attempted. -/
def saveDataAux (fails : String → Bool) (sid : String) : FS →
    List (String × List NetworkEvent) → FS × Bool
  | fs, [] => (fs, true)
  | fs, (domain, data) :: rest =>
      if data = [] then saveDataAux fails sid fs rest
      else
        let w := writeOriginFiles fails sid fs domain data
        if w.2 then saveDataAux fails sid w.1 rest else (w.1, false)

/-- `Slowpro.save_data` (slowpro.py:368-401).  The buffers are only
read, never written: they come back unchanged whether or not the
flush succeeds. -/
def saveData (fails : String → Bool) (st : SlowproState) : SlowproState × Bool :=
  let r := saveDataAux fails st.session_start st.files st.performance_data
  ({ st with files := r.1 }, r.2)

/-- A failure-free disk, for stating idempotence of the flush. -/
def noFail : String → Bool := fun _ => false

/-- The ordered list of (path, content) writes a failure-free flush
performs, derived from the buffers exactly as `saveDataAux` does. -/
def originWrites (sid : String) : List (String × List NetworkEvent) → List (String × FileContent)
  | [] => []
  | (domain, data) :: rest =>
      if data = [] then originWrites sid rest
      else (jsonPath sid domain, .json data) ::
        (csvPath sid domain, .csv (csvRowsOf data)) :: originWrites sid rest

/-- Apply a write list to the store, in order. -/
def applyWrites (fs : FS) (ws : List (String × FileContent)) : FS :=
  ws.foldl (fun a w => fsSet a w.1 w.2) fs

/-- The last content a write list assigns to path `p`, if any. -/
def lastVal (p : String) : List (String × FileContent) → Option FileContent
  | [] => none
  | (q, v) :: rest => orO (lastVal p rest) (if p = q then some v else none)

/-- Per-session metadata built by `load_data` (report_generator.py:150-159):
the set of origins touched (modelled as a duplicate-free list in
insertion order), the cumulative request count, and the contributing
file paths. -/
structure SessionInfo where
  domains : List String
  request_count : Nat
  files : List String
deriving DecidableEq, Inhabited

/-- Set insertion for `SessionInfo.domains` (`set.add`). -/
def addUnique (l : List String) (x : String) : List String :=
  if x ∈ l then l else l ++ [x]

/-- One discovered `session_*.json` file: its origin is its parent
directory's name, its session id the stem with `session_` stripped
(report_generator.py:111-113).  `parsed` is `none` when opening or
JSON-decoding the file raises (the file is then skipped with a
warning, report_generator.py:161-162). -/
structure PersistedFile where
  origin : String
  session_id : String
  parsed : Option (List NetworkEvent)
deriving DecidableEq, Inhabited

/-- The path string recorded in `SessionInfo.files`. -/
def jsonFilePath (f : PersistedFile) : String :=
  f.origin ++ "/session_" ++ f.session_id ++ ".json"

/-- The generator state `load_data` builds and `analyze_data` reads
(report_generator.py:49-51, 128-131). -/
structure LoadState where
  all_data : List NetworkEvent
  domains : List (String × List NetworkEvent)
  session_info : List (String × SessionInfo)
deriving DecidableEq, Inhabited

/-- The reset state of report_generator.py:128-131. -/
def emptyLoadState : LoadState := ⟨[], [], []⟩

/-- The selection test of report_generator.py:115-118:
`if selected_xs and x not in selected_xs: continue`.  Python truthiness
makes an **empty** supplied allow-list behave exactly like no list at
all: everything passes. -/
def passesFilter (sel : Option (List String)) (x : String) : Bool :=
  match sel with
  | none => true
  | some l => if l = [] then true else decide (x ∈ l)

/-- The filtered file set (report_generator.py:110-120): a file
survives only if its origin passes the domain selection and its
session id passes the session selection. -/
def filterFiles (files : List PersistedFile) (selD selS : Option (List String)) :
    List PersistedFile :=
  files.filter fun f => passesFilter selD f.origin && passesFilter selS f.session_id

/-- Loading one filtered file (report_generator.py:134-162): a file
that fails to parse is skipped entirely; otherwise its events extend
the origin's bucket and the corpus, and the session entry is created
on first sight and updated. -/
def loadFile (st : LoadState) (f : PersistedFile) : LoadState :=
  match f.parsed with
  | none => st
  | some data =>
      { all_data := st.all_data ++ data
        domains := updateAssoc st.domains f.origin [] (fun bucket => bucket ++ data)
        session_info := updateAssoc st.session_info f.session_id ⟨[], 0, []⟩
          (fun info =>
            ⟨addUnique info.domains f.origin,
             info.request_count + data.length,
             info.files ++ [jsonFilePath f]⟩) }

/-- The message printed when the data root holds no session files at
all (report_generator.py:106). -/
def noDataFoundMsg : String := "No session JSON files found in the data directory"

/-- The message printed when session files exist but the selection
excludes all of them (report_generator.py:123). -/
def noDataMatchesFilterMsg : String := "No files match the selected filters"

/-- `DashboardGenerator.load_data` (report_generator.py:89-165).  The
two failure exits both `return False` in Python and are told apart by
their printed diagnostics; the model carries that diagnostic as the
error value. -/
def loadData (files : List PersistedFile) (selD selS : Option (List String)) :
    Except String LoadState :=
  if files = [] then .error noDataFoundMsg
  else
    let filtered := filterFiles files selD selS
    if filtered = [] then .error noDataMatchesFilterMsg
    else .ok (filtered.foldl loadFile emptyLoadState)

/-- One origin's accumulator in `domains_stats`
(report_generator.py:200-210).  `min_time` is `none` while the Python
value is the `float('inf')` sentinel — the state before any event with
a positive response time has been seen. -/
structure DomainAcc where
  requests : Nat
  total_time : ℚ
  total_size : ℚ
  avg_time : ℚ
  avg_size : ℚ
  min_time : Option ℚ
  max_time : ℚ
  response_times : List ℚ
deriving DecidableEq, Inhabited

/-- The freshly created bucket of report_generator.py:201-210. -/
def newDomainAcc : DomainAcc := ⟨0, 0, 0, 0, 0, none, 0, []⟩

/-- Folding one request into its origin's accumulator
(report_generator.py:212-221): count and totals unconditionally, the
min/max/samples only when `response_time_ms` is strictly positive. -/
def analyzeStepDomain (r : NetworkEvent) (s : DomainAcc) : DomainAcc :=
  let rt := r.response_time_ms.getD 0
  let s1 := { s with
    requests := s.requests + 1
    total_time := s.total_time + rt
    total_size := s.total_size + r.response_size.getD 0 }
  if 0 < rt then
    { s1 with
      response_times := s1.response_times ++ [rt]
      min_time := some (match s1.min_time with | none => rt | some m => min m rt)
      max_time := max s1.max_time rt }
  else s1

/-- The three histograms/rollups the analysis loop builds in one pass
over the corpus (report_generator.py:185-187). -/
structure AnalyzeAcc where
  resource_types : List (String × Nat)
  status_codes : List (Int × Nat)
  domains_stats : List (String × DomainAcc)
deriving DecidableEq, Inhabited

/-- One iteration of the analysis loop (report_generator.py:189-221). -/
def analyzeStep (acc : AnalyzeAcc) (r : NetworkEvent) : AnalyzeAcc where
  resource_types := updateAssoc acc.resource_types (r.resource_type.getD "unknown") 0 (· + 1)
  status_codes := updateAssoc acc.status_codes (r.status.getD 0) 0 (· + 1)
  domains_stats := updateAssoc acc.domains_stats (r.domain.getD "unknown")
    newDomainAcc (analyzeStepDomain r)

/-- The per-origin finalisation pass (report_generator.py:224-233):
for buckets with at least one request, derive the rounded averages,
collapse a still-infinite `min_time` to `0`, and round min/max. -/
def finalizeDomain (s : DomainAcc) : DomainAcc :=
  if 0 < s.requests then
    let m : ℚ := match s.min_time with | none => 0 | some q => q
    { s with
      avg_time := round2 (s.total_time / s.requests)
      avg_size := round2 (s.total_size / s.requests)
      min_time := some (round2 m)
      max_time := round2 s.max_time }
  else s

/-- The insights snapshot (report_generator.py:236-252). -/
structure Insights where
  total_requests : Nat
  total_domains : Nat
  total_sessions : Nat
  avg_response_time : ℚ
  median_response_time : ℚ
  max_response_time : ℚ
  min_response_time : ℚ
  avg_response_size : ℚ
  total_data_transferred : ℚ
  resource_types : List (String × Nat)
  status_codes : List (Int × Nat)
  domains_stats : List (String × DomainAcc)
  slowest_requests : List NetworkEvent
  largest_requests : List NetworkEvent
  failed_requests : List NetworkEvent
deriving DecidableEq, Inhabited

/-- `DashboardGenerator.analyze_data` (report_generator.py:167-254).
An empty corpus returns the empty dictionary (`return {}`,
report_generator.py:174-175), modelled as `none`: no aggregate fields
exist at all in that case. -/
def analyzeData (st : LoadState) : Option Insights :=
  if st.all_data = [] then none
  else
    let response_times :=
      (st.all_data.filter fun r => decide (0 < r.response_time_ms.getD 0)).map
        fun r => r.response_time_ms.getD 0
    let response_sizes :=
      (st.all_data.filter fun r => decide (0 < r.response_size.getD 0)).map
        fun r => r.response_size.getD 0
    let acc := st.all_data.foldl analyzeStep ⟨[], [], []⟩
    some
      { total_requests := st.all_data.length
        total_domains := st.domains.length
        total_sessions := st.session_info.length
        avg_response_time := if response_times = [] then 0 else round2 (pymean response_times)
        median_response_time := if response_times = [] then 0 else round2 (pymedian response_times)
        max_response_time := if response_times = [] then 0 else pymax response_times
        min_response_time := if response_times = [] then 0 else pymin response_times
        avg_response_size := if response_sizes = [] then 0 else round2 (pymean response_sizes)
        total_data_transferred := response_sizes.sum
        resource_types := acc.resource_types
        status_codes := acc.status_codes
        domains_stats := acc.domains_stats.map fun p => (p.1, finalizeDomain p.2)
        slowest_requests := (sortDescBy (fun r => r.response_time_ms.getD 0) st.all_data).take 10
        largest_requests := (sortDescBy (fun r => r.response_size.getD 0) st.all_data).take 10
        failed_requests := st.all_data.filter fun r => decide (400 ≤ r.status.getD 200) }

/-- Lookup after an ordered-dictionary update: the updated key now maps
to `f` of its previous value (or of the default), every other key is
untouched.  Shared by the store, loader and analytics proofs. -/
theorem lookupA_updateAssoc {κ β : Type} [DecidableEq κ] (m : List (κ × β)) (k : κ) (d : β)
    (f : β → β) (q : κ) :
    lookupA (updateAssoc m k d f) q =
      if q = k then some (f ((lookupA m k).getD d)) else lookupA m q := by
  induction m with
  | nil =>
      by_cases h : q = k
      · subst h; simp [updateAssoc, lookupA]
      · simp [updateAssoc, lookupA, h, Ne.symm h]
  | cons hd tl ih =>
      obtain ⟨a, v⟩ := hd
      by_cases hak : a = k
      · subst hak
        by_cases hqa : q = a
        · subst hqa; simp [updateAssoc, lookupA]
        · simp [updateAssoc, lookupA, hqa, Ne.symm hqa]
      · by_cases hqa : q = a
        · subst hqa
          simp [updateAssoc, lookupA, hak, Ne.symm hak]
        · simp [updateAssoc, lookupA, hak, Ne.symm hqa, ih]

/-- A sample captured event for origin `a.com`. -/
def sampleEventA : NetworkEvent :=
  ⟨"https://a.com/x", some "a.com", "T0", "network_request", "GET", some 200,
   some 0, some 0, "unknown", "idA", "img", some "Image", 0⟩

/-- A sample captured event for origin `b.com`. -/
def sampleEventB : NetworkEvent :=
  { sampleEventA with url := "https://b.com/x", domain := some "b.com", request_id := "idB" }

/-- C1 counterexample: on the empty corpus `analyze_data` returns the
empty dictionary (`none`), not an `Insights` value whose aggregates are
`0` and whose containers are empty — there is no `Insights` value at
all, so the claim's described return value does not exist. -/
theorem analyze_data_empty_corpus_no_insights :
    (analyzeData emptyLoadState).isSome = false := rfl

/-- C1 (amended): for every generator state with an empty corpus,
`analyze_data` returns the empty mapping — no aggregate, histogram,
ranking or failure-set field is produced at all, and in particular no
`NaN` or infinity value is ever returned. -/
theorem analyze_data_empty_corpus_returns_empty (st : LoadState)
    (h : st.all_data = []) : analyzeData st = none := by
  simp [analyzeData, h]

/-- Witness for the C1 theorem at the concrete empty state. -/
theorem analyze_data_empty_corpus_returns_empty_witness :
    analyzeData emptyLoadState = none :=
  analyze_data_empty_corpus_returns_empty emptyLoadState rfl

/-- Buffers holding two origins, with an empty output directory. -/
def twoOriginState : SlowproState :=
  ⟨"S", [("a.com", [sampleEventA]), ("b.com", [sampleEventB])], []⟩

/-- Failure model: only opening `a.com`'s JSON file raises. -/
def failsAJson : String → Bool := fun p => decide (p = jsonPath "S" "a.com")

/-- C2 counterexample: with two buffered origins and a write failure on
the first origin's JSON file, the flush reports failure and the second
origin's files were never written — the remaining origin was *not*
attempted (its own writes would have succeeded), refuting the claim
that a failure on one origin does not abort the flush. -/
theorem save_data_failure_skips_remaining_origin :
    (saveData failsAJson twoOriginState).2 = false ∧
    fsGet ((saveData failsAJson twoOriginState).1).files (jsonPath "S" "b.com") = none ∧
    fsGet ((saveData failsAJson twoOriginState).1).files (csvPath "S" "b.com") = none := by
  decide

/-- C2 (amended): an I/O failure while writing one origin's files ends
the whole flush (`save_data`'s single `try` wraps the per-origin loop),
so when the first buffered origin's JSON write fails nothing at all is
written and the call reports failure; the in-memory buffers are left
unchanged, so the same data is eligible for the next flush attempt. -/
theorem save_data_first_origin_failure_aborts (fails : String → Bool) (st : SlowproState)
    (o : String) (d : List NetworkEvent) (rest : List (String × List NetworkEvent))
    (hpd : st.performance_data = (o, d) :: rest)
    (hne : d ≠ [])
    (hfail : fails (jsonPath st.session_start o) = true) :
    (saveData fails st).2 = false ∧
    ((saveData fails st).1).files = st.files ∧
    ((saveData fails st).1).performance_data = st.performance_data := by
  simp [saveData, hpd, saveDataAux, hne, writeOriginFiles, hfail]

/-- Witness for the C2 theorem at the two-origin state with the
failure on the first origin. -/
theorem save_data_first_origin_failure_aborts_witness :
    (saveData failsAJson twoOriginState).2 = false ∧
    ((saveData failsAJson twoOriginState).1).files = twoOriginState.files ∧
    ((saveData failsAJson twoOriginState).1).performance_data =
      twoOriginState.performance_data :=
  save_data_first_origin_failure_aborts failsAJson twoOriginState "a.com" [sampleEventA]
    [("b.com", [sampleEventB])] rfl (by decide) (by decide)

/-- A persisted file of origin `b.com`, session `S1`. -/
def fileB : PersistedFile := ⟨"b.com", "S1", some [sampleEventB]⟩

/-- C4: when the root holds session files but the selection filters out
all of them, loading fails with the no-match diagnostic, while an empty
root fails with the no-data diagnostic; the two failures are distinct,
so the two conditions can be told apart. -/
theorem load_data_failures_are_distinct (files : List PersistedFile)
    (selD selS : Option (List String))
    (hne : files ≠ []) (hfil : filterFiles files selD selS = []) :
    loadData files selD selS = .error noDataMatchesFilterMsg ∧
    loadData [] selD selS = .error noDataFoundMsg ∧
    noDataMatchesFilterMsg ≠ noDataFoundMsg := by
  refine ⟨?_, by simp [loadData], by decide⟩
  simp [loadData, hne, hfil]

/-- Witness for the C4 theorem: a one-file root filtered by a
non-matching origin allow-list. -/
theorem load_data_failures_are_distinct_witness :
    loadData [fileB] (some ["a.com"]) none = .error noDataMatchesFilterMsg ∧
    loadData [] (some ["a.com"]) none = .error noDataFoundMsg ∧
    noDataMatchesFilterMsg ≠ noDataFoundMsg :=
  load_data_failures_are_distinct [fileB] (some ["a.com"]) none (by decide) (by decide)

/-- Reading the store after one overwrite. -/
theorem fsGet_fsSet (fs : FS) (p : String) (c : FileContent) (q : String) :
    fsGet (fsSet fs p c) q = if q = p then some c else fsGet fs q := by
  simp [fsGet, fsSet, lookupA_updateAssoc]

/-- Reading the store after a write list: the last write to the path
wins, otherwise the old content shows through. -/
theorem fsGet_applyWrites (ws : List (String × FileContent)) (fs : FS) (p : String) :
    fsGet (applyWrites fs ws) p = orO (lastVal p ws) (fsGet fs p) := by
  induction ws generalizing fs with
  | nil => simp [applyWrites, lastVal, orO]
  | cons w ws ih =>
      obtain ⟨q, v⟩ := w
      have h1 : applyWrites fs ((q, v) :: ws) = applyWrites (fsSet fs q v) ws := rfl
      rw [h1, ih, fsGet_fsSet]
      show _ = orO (orO (lastVal p ws) (if p = q then some v else none)) (fsGet fs p)
      cases h : lastVal p ws
      · by_cases hpq : p = q <;> simp [orO, hpq]
      · simp [orO]

/-- A failure-free flush performs exactly the derived write list and
reports success. -/
theorem saveDataAux_noFail (sid : String) (bufs : List (String × List NetworkEvent)) (fs : FS) :
    saveDataAux noFail sid fs bufs = (applyWrites fs (originWrites sid bufs), true) := by
  induction bufs generalizing fs with
  | nil => simp [saveDataAux, applyWrites, originWrites]
  | cons b bufs ih =>
      obtain ⟨o, d⟩ := b
      by_cases hd : d = []
      · simp [saveDataAux, originWrites, hd, ih]
      · simp only [saveDataAux, originWrites, hd, if_neg, ite_false, writeOriginFiles, noFail,
          Bool.false_eq_true, if_false, ih]
        rfl

/-- C8: each flush is a full overwrite of both files per origin, so
flushing twice on an unchanged buffer state succeeds both times,
leaves the buffers unchanged, and every path in the store — in
particular every origin's JSON and CSV file — holds identical parsed
content after the first and the second flush. -/
theorem save_data_flush_idempotent (st : SlowproState) :
    (saveData noFail st).2 = true ∧
    (saveData noFail ((saveData noFail st).1)).2 = true ∧
    ((saveData noFail st).1).performance_data = st.performance_data ∧
    ∀ p, fsGet ((saveData noFail ((saveData noFail st).1)).1).files p =
      fsGet ((saveData noFail st).1).files p := by
  have h1 : saveData noFail st =
      (⟨st.session_start, st.performance_data,
        applyWrites st.files (originWrites st.session_start st.performance_data)⟩, true) := by
    simp [saveData, saveDataAux_noFail]
  have h2 : saveData noFail ((saveData noFail st).1) =
      (⟨st.session_start, st.performance_data,
        applyWrites (applyWrites st.files (originWrites st.session_start st.performance_data))
          (originWrites st.session_start st.performance_data)⟩, true) := by
    rw [h1]
    simp [saveData, saveDataAux_noFail]
  refine ⟨by rw [h1], by rw [h2], by rw [h1], fun p => ?_⟩
  rw [h2, h1]
  simp only [fsGet_applyWrites]
  cases h : lastVal p (originWrites st.session_start st.performance_data) <;> simp [orO]

/-- The dedup pass admits an id exactly when it was not yet processed:
counting admissions, the grown set holds `id` exactly when the old set
held it or the admitted requests contribute one occurrence. -/
theorem dedupNew_count (es : List NetworkEvent) (processed : List String) (id : String) :
    (if id ∈ (dedupNew processed es).2 then 1 else 0) =
      (if id ∈ processed then 1 else 0) +
        ((dedupNew processed es).1.map NetworkEvent.request_id).count id := by
  induction es generalizing processed with
  | nil => simp [dedupNew]
  | cons e es ih =>
      by_cases hmem : e.request_id ∈ processed
      · simpa [dedupNew, hmem] using ih processed
      · have h2 := ih (e.request_id :: processed)
        by_cases hid : id = e.request_id
        · subst hid
          simp only [List.mem_cons, true_or, if_pos, if_true] at h2
          simp [dedupNew, hmem, List.count_cons, h2]
          omega
        · simp only [List.mem_cons, hid, false_or] at h2
          simp [dedupNew, hmem, List.count_cons, hid, Ne.symm hid, h2]

/-- The dedup set only grows. -/
theorem processed_sub_dedupNew (es : List NetworkEvent) (processed : List String)
    (id : String) (h : id ∈ processed) : id ∈ (dedupNew processed es).2 := by
  induction es generalizing processed with
  | nil => simpa [dedupNew]
  | cons e es ih =>
      by_cases hmem : e.request_id ∈ processed
      · simpa [dedupNew, hmem] using ih processed h
      · simpa [dedupNew, hmem] using ih (e.request_id :: processed) (by simp [h])

/-- Every id seen in a tick ends up in the dedup set. -/
theorem rid_mem_dedupNew (es : List NetworkEvent) (processed : List String)
    (e : NetworkEvent) (he : e ∈ es) : e.request_id ∈ (dedupNew processed es).2 := by
  induction es generalizing processed with
  | nil => cases he
  | cons x es ih =>
      rcases List.mem_cons.mp he with h | h
      · subst h
        by_cases hmem : e.request_id ∈ processed
        · simpa [dedupNew, hmem] using processed_sub_dedupNew es processed _ hmem
        · simpa [dedupNew, hmem] using
            processed_sub_dedupNew es (e.request_id :: processed) _ (by simp)
      · by_cases hmem : x.request_id ∈ processed
        · simpa [dedupNew, hmem] using ih processed h
        · simpa [dedupNew, hmem] using ih (x.request_id :: processed) h

/-- Appending one request to its bucket adds exactly one occurrence of
its id to the stored corpus. -/
theorem bucketIds_storeRequest (pd : List (String × List NetworkEvent)) (e : NetworkEvent)
    (id : String) :
    (bucketIds (storeRequest pd e)).count id =
      (bucketIds pd).count id + (if e.request_id = id then 1 else 0) := by
  induction pd with
  | nil => simp [storeRequest, updateAssoc, bucketIds, List.count_cons]
  | cons b tl ih =>
      obtain ⟨a, bucket⟩ := b
      by_cases ha : a = e.domain.getD "unknown"
      · simp [storeRequest, updateAssoc, ha, bucketIds, List.count_append, List.count_cons]
        omega
      · have ha2 : ¬(a = e.domain.getD "unknown") := ha
        simp only [storeRequest, updateAssoc, ha2, ite_false, bucketIds, List.count_append]
        have := ih
        simp only [storeRequest] at this
        rw [this]
        omega

/-- Storing a batch of admitted requests adds their id multiset to the
corpus. -/
theorem bucketIds_foldl_store (news : List NetworkEvent)
    (pd : List (String × List NetworkEvent)) (id : String) :
    (bucketIds (news.foldl storeRequest pd)).count id =
      (bucketIds pd).count id + (news.map NetworkEvent.request_id).count id := by
  induction news generalizing pd with
  | nil => simp
  | cons e news ih =>
      simp only [List.foldl_cons, ih, bucketIds_storeRequest, List.map_cons, List.count_cons]
      by_cases h : e.request_id = id
      · simp [h]
        omega
      · simp [h]

/-- The capture invariant: an id occurs in the stored corpus exactly
once if it is in the dedup set and never otherwise. -/
def capInv (st : CaptureState) : Prop :=
  ∀ id : String, (bucketIds st.performance_data).count id = if id ∈ st.processed then 1 else 0

/-- One polling tick preserves the capture invariant. -/
theorem capInv_processTick (st : CaptureState) (entries : List NetworkEvent)
    (h : capInv st) : capInv (processTick st entries) := by
  intro id
  have hc := dedupNew_count entries st.processed id
  simp only [processTick, bucketIds_foldl_store, h id]
  omega

/-- A whole run preserves the capture invariant. -/
theorem capInv_runTicks (ticks : List (List NetworkEvent)) (st : CaptureState)
    (h : capInv st) : capInv (runTicks st ticks) := by
  induction ticks generalizing st with
  | nil => simpa [runTicks]
  | cons t ticks ih =>
      have : runTicks st (t :: ticks) = runTicks (processTick st t) ticks := rfl
      rw [this]
      exact ih _ (capInv_processTick st t h)

/-- The dedup set only grows across a run. -/
theorem processed_sub_runTicks (ticks : List (List NetworkEvent)) (st : CaptureState)
    (id : String) (h : id ∈ st.processed) : id ∈ (runTicks st ticks).processed := by
  induction ticks generalizing st with
  | nil => simpa [runTicks]
  | cons t ticks ih =>
      have h1 : runTicks st (t :: ticks) = runTicks (processTick st t) ticks := rfl
      rw [h1]
      exact ih _ (processed_sub_dedupNew t st.processed id h)

/-- Every id observed in any tick of a run is in the final dedup set. -/
theorem rid_mem_runTicks (ticks : List (List NetworkEvent)) (st : CaptureState)
    (t : List NetworkEvent) (ht : t ∈ ticks) (e : NetworkEvent) (he : e ∈ t) :
    e.request_id ∈ (runTicks st ticks).processed := by
  induction ticks generalizing st with
  | nil => cases ht
  | cons t0 ticks ih =>
      have h1 : runTicks st (t0 :: ticks) = runTicks (processTick st t0) ticks := rfl
      rw [h1]
      rcases List.mem_cons.mp ht with h | h
      · subst h
        exact processed_sub_runTicks ticks _ _ (rid_mem_dedupNew t st.processed e he)
      · exact ih (processTick st t0) h

/-- C3: over any sequence of polling ticks of one capture session, the
stored corpus never holds two events with the same `request_id`, and
any id that appears in some tick's entries is stored exactly once —
the dedup set `processed_request_ids` is the single source of truth
for "already recorded". -/
theorem monitor_dedup_request_ids_unique (ticks : List (List NetworkEvent)) (rid : String)
    (h : ∃ t ∈ ticks, ∃ e ∈ t, e.request_id = rid) :
    (bucketIds ((runTicks initialCaptureState ticks).performance_data)).Nodup ∧
    (bucketIds ((runTicks initialCaptureState ticks).performance_data)).count rid = 1 := by
  have hinv : capInv (runTicks initialCaptureState ticks) :=
    capInv_runTicks ticks initialCaptureState (by intro id; simp [initialCaptureState, bucketIds])
  constructor
  · rw [List.nodup_iff_count_le_one]
    intro a
    rw [hinv a]
    split <;> simp
  · obtain ⟨t, ht, e, he, hrid⟩ := h
    have hm : rid ∈ (runTicks initialCaptureState ticks).processed :=
      hrid ▸ rid_mem_runTicks ticks initialCaptureState t ht e he
    rw [hinv rid, if_pos hm]

/-- Witness for the C3 theorem: the same event observed in two
consecutive ticks is stored exactly once. -/
theorem monitor_dedup_request_ids_unique_witness :
    (bucketIds ((runTicks initialCaptureState [[sampleEventA], [sampleEventA]]).performance_data)).Nodup ∧
    (bucketIds ((runTicks initialCaptureState [[sampleEventA], [sampleEventA]]).performance_data)).count "idA" = 1 :=
  monitor_dedup_request_ids_unique [[sampleEventA], [sampleEventA]] "idA"
    ⟨[sampleEventA], by simp, sampleEventA, by simp, rfl⟩

/-- The corpus built by the loading loop is the concatenation, in file
order, of the parsed events of the loaded files (a file that fails to
parse contributes nothing). -/
theorem all_data_foldl_loadFile (fs : List PersistedFile) (st : LoadState) :
    (fs.foldl loadFile st).all_data =
      st.all_data ++ (fs.map fun f => f.parsed.getD []).flatten := by
  induction fs generalizing st with
  | nil => simp
  | cons f fs ih =>
      cases hp : f.parsed with
      | none => simp [List.foldl_cons, loadFile, hp, ih]
      | some data => simp [List.foldl_cons, loadFile, hp, ih, List.append_assoc]

/-- A session-metadata entry can only come from the initial state or
from some loaded file with that session id that parsed successfully. -/
theorem session_info_lookup_source (fs : List PersistedFile) (st : LoadState) (sid : String)
    (h : lookupA (fs.foldl loadFile st).session_info sid ≠ none) :
    lookupA st.session_info sid ≠ none ∨
      ∃ f ∈ fs, f.session_id = sid ∧ f.parsed.isSome = true := by
  induction fs generalizing st with
  | nil => exact Or.inl (by simpa using h)
  | cons f fs ih =>
      have hfold : (f :: fs).foldl loadFile st = fs.foldl loadFile (loadFile st f) := rfl
      rw [hfold] at h
      rcases ih (loadFile st f) h with h2 | h2
      · cases hp : f.parsed with
        | none => exact Or.inl (by simpa [loadFile, hp] using h2)
        | some data =>
            by_cases hsid : f.session_id = sid
            · exact Or.inr ⟨f, by simp, hsid, by simp [hp]⟩
            · left
              have hl := lookupA_updateAssoc st.session_info f.session_id
                (⟨[], 0, []⟩ : SessionInfo)
                (fun info =>
                  ⟨addUnique info.domains f.origin,
                   info.request_count + data.length,
                   info.files ++ [jsonFilePath f]⟩) sid
              rw [if_neg (fun h3 => hsid h3.symm)] at hl
              simpa [loadFile, hp, hl] using h2
      · obtain ⟨g, hg, hs, hps⟩ := h2
        exact Or.inr ⟨g, by simp [hg], hs, hps⟩

/-- C9 counterexample: an **empty** origin allow-list is supplied (it
is reachable from the selection menu when every typed index is out of
range), yet the file of origin `b.com` — not a member of the empty
allow-list — still contributes its events and session metadata:
Python's truthiness test `if selected_domains and ...` treats an empty
active allow-list like no filter at all. -/
theorem load_empty_allowlist_admits_other_origins :
    loadData [fileB] (some []) none =
      .ok ⟨[sampleEventB], [("b.com", [sampleEventB])],
           [("S1", ⟨["b.com"], 1, ["b.com/session_S1.json"]⟩)]⟩ := by
  rfl

/-- C9 (amended): a persisted file contributes to the corpus only if
its parent-directory origin and its session id both pass their
selections, where a *nonempty* allow-list admits exactly its members
and an absent **or empty** allow-list admits everything.  With origins
restricted to the nonempty list `[a]`, every corpus event comes from
(and, when files are well-formed, carries the domain of) origin `a`,
and no session-metadata entry exists for a session whose files all
belong to filtered-out origins. -/
theorem load_data_filter_correct (files : List PersistedFile) (selD selS : Option (List String))
    (st : LoadState) (h : loadData files selD selS = .ok st) :
    st.all_data = ((filterFiles files selD selS).map fun f => f.parsed.getD []).flatten ∧
    (∀ e ∈ st.all_data, ∃ f ∈ files,
        passesFilter selD f.origin = true ∧ passesFilter selS f.session_id = true ∧
        ∃ evs, f.parsed = some evs ∧ e ∈ evs) ∧
    (∀ a, selD = some [a] →
        (∀ f ∈ files, ∀ evs, f.parsed = some evs →
          ∀ e ∈ evs, e.domain.getD "unknown" = f.origin) →
        ∀ e ∈ st.all_data, e.domain.getD "unknown" = a) ∧
    (∀ sid, lookupA st.session_info sid ≠ none →
        ∃ f ∈ files, f.session_id = sid ∧ passesFilter selD f.origin = true ∧
          passesFilter selS sid = true ∧ f.parsed.isSome = true) := by
  have hst : st = (filterFiles files selD selS).foldl loadFile emptyLoadState := by
    by_cases h1 : files = []
    · simp [loadData, h1] at h
    · by_cases h2 : filterFiles files selD selS = []
      · simp [loadData, h1, h2] at h
      · simp [loadData, h1, h2, Except.ok.injEq] at h
        exact h.symm
  subst hst
  have hcorpus : (List.foldl loadFile emptyLoadState (filterFiles files selD selS)).all_data =
      ((filterFiles files selD selS).map fun f => f.parsed.getD []).flatten := by
    rw [all_data_foldl_loadFile]
    rfl
  have hmem : ∀ e ∈ ((filterFiles files selD selS).foldl loadFile emptyLoadState).all_data,
      ∃ f ∈ files,
        passesFilter selD f.origin = true ∧ passesFilter selS f.session_id = true ∧
        ∃ evs, f.parsed = some evs ∧ e ∈ evs := by
    intro e he
    rw [hcorpus] at he
    obtain ⟨l, hl, hel⟩ := List.mem_flatten.mp he
    obtain ⟨f, hf, rfl⟩ := List.mem_map.mp hl
    obtain ⟨hfin, hpass⟩ := List.mem_filter.mp hf
    rw [Bool.and_eq_true] at hpass
    obtain ⟨hpd, hps⟩ := hpass
    cases hp : f.parsed with
    | none => rw [hp] at hel; cases hel
    | some evs => exact ⟨f, hfin, hpd, hps, evs, hp, by rwa [hp] at hel⟩
  refine ⟨hcorpus, hmem, ?_, ?_⟩
  · intro a hsel hwf e he
    obtain ⟨f, hfin, hpd, _, evs, hp, hev⟩ := hmem e he
    have hfa : f.origin = a := by
      rw [hsel] at hpd
      simpa [passesFilter] using hpd
    rw [hwf f hfin evs hp e hev, hfa]
  · intro sid hlk
    rcases session_info_lookup_source (filterFiles files selD selS) emptyLoadState sid hlk
      with h2 | h2
    · exact absurd (rfl : lookupA emptyLoadState.session_info sid = none) h2
    · obtain ⟨f, hf, hsid, hps⟩ := h2
      obtain ⟨hfin, hpass⟩ := List.mem_filter.mp hf
      rw [Bool.and_eq_true] at hpass
      obtain ⟨hpd, hpss⟩ := hpass
      exact ⟨f, hfin, hsid, hpd, hsid ▸ hpss, hps⟩

/-- A persisted file of origin `a.com`, session `S1`. -/
def fileA : PersistedFile := ⟨"a.com", "S1", some [sampleEventA]⟩

/-- Witness for the C9 theorem: a store holding origins `a.com` and
`b.com`, loaded with origins restricted to `a.com`. -/
theorem load_data_filter_correct_witness :
    (⟨[sampleEventA], [("a.com", [sampleEventA])],
      [("S1", ⟨["a.com"], 1, ["a.com/session_S1.json"]⟩)]⟩ : LoadState).all_data =
      ((filterFiles [fileA, fileB] (some ["a.com"]) none).map fun f => f.parsed.getD []).flatten ∧
    (∀ e ∈ (⟨[sampleEventA], [("a.com", [sampleEventA])],
      [("S1", ⟨["a.com"], 1, ["a.com/session_S1.json"]⟩)]⟩ : LoadState).all_data,
      ∃ f ∈ [fileA, fileB],
        passesFilter (some ["a.com"]) f.origin = true ∧ passesFilter none f.session_id = true ∧
        ∃ evs, f.parsed = some evs ∧ e ∈ evs) ∧
    (∀ a, (some ["a.com"] : Option (List String)) = some [a] →
        (∀ f ∈ [fileA, fileB], ∀ evs, f.parsed = some evs →
          ∀ e ∈ evs, e.domain.getD "unknown" = f.origin) →
        ∀ e ∈ (⟨[sampleEventA], [("a.com", [sampleEventA])],
          [("S1", ⟨["a.com"], 1, ["a.com/session_S1.json"]⟩)]⟩ : LoadState).all_data,
          e.domain.getD "unknown" = a) ∧
    (∀ sid, lookupA (⟨[sampleEventA], [("a.com", [sampleEventA])],
        [("S1", ⟨["a.com"], 1, ["a.com/session_S1.json"]⟩)]⟩ : LoadState).session_info sid ≠ none →
        ∃ f ∈ [fileA, fileB], f.session_id = sid ∧
          passesFilter (some ["a.com"]) f.origin = true ∧
          passesFilter none sid = true ∧ f.parsed.isSome = true) :=
  load_data_filter_correct [fileA, fileB] (some ["a.com"]) none
    ⟨[sampleEventA], [("a.com", [sampleEventA])],
     [("S1", ⟨["a.com"], 1, ["a.com/session_S1.json"]⟩)]⟩ (by rfl)

/-- Rounding zero to two decimals gives zero. -/
theorem round2_zero : round2 0 = 0 := by norm_num [round2]

/-- Lookup commutes with the per-origin finalisation pass. -/
theorem lookupA_map_finalize (m : List (String × DomainAcc)) (d : String) :
    lookupA (m.map fun p => (p.1, finalizeDomain p.2)) d =
      (lookupA m d).map finalizeDomain := by
  induction m with
  | nil => simp [lookupA]
  | cons p tl ih =>
      obtain ⟨a, v⟩ := p
      by_cases h : a = d <;> simp [lookupA, h, ih]

/-- Invariant of the analysis loop for a fixed origin `d`: as long as
no processed event of origin `d` has a positive response time, `d`'s
accumulator (if present) has seen at least one request, still carries
the `float('inf')` sentinel (`none`) as `min_time`, and has
`max_time = 0`. -/
theorem domains_stats_no_positive (l : List NetworkEvent) (acc : AnalyzeAcc) (d : String)
    (hl : ∀ e ∈ l, e.domain.getD "unknown" = d → e.response_time_ms.getD 0 ≤ 0)
    (hacc : ∀ s, lookupA acc.domains_stats d = some s →
      0 < s.requests ∧ s.min_time = none ∧ s.max_time = 0) :
    ∀ s, lookupA (l.foldl analyzeStep acc).domains_stats d = some s →
      0 < s.requests ∧ s.min_time = none ∧ s.max_time = 0 := by
  induction l generalizing acc with
  | nil => simpa using hacc
  | cons e l ih =>
      have hfold : (e :: l).foldl analyzeStep acc = l.foldl analyzeStep (analyzeStep acc e) := rfl
      rw [hfold]
      refine ih (analyzeStep acc e) (fun x hx hdx => hl x (by simp [hx]) hdx) ?_
      intro s hs
      have hds : (analyzeStep acc e).domains_stats =
          updateAssoc acc.domains_stats (e.domain.getD "unknown") newDomainAcc
            (analyzeStepDomain e) := rfl
      rw [hds, lookupA_updateAssoc] at hs
      by_cases hd : d = e.domain.getD "unknown"
      · rw [if_pos hd] at hs
        have hrt : e.response_time_ms.getD 0 ≤ 0 := hl e (by simp) hd.symm
        have hnp : ¬(0 < e.response_time_ms.getD 0) := not_lt.mpr hrt
        have hs2 : s = analyzeStepDomain e
            ((lookupA acc.domains_stats (e.domain.getD "unknown")).getD newDomainAcc) :=
          (Option.some.injEq _ _ ▸ hs).symm
        cases hlo : lookupA acc.domains_stats (e.domain.getD "unknown") with
        | none =>
            subst hs2
            rw [hlo]
            simp [analyzeStepDomain, hnp, newDomainAcc]
        | some s0 =>
            have hprev := hacc s0 (by rw [hd]; exact hlo)
            subst hs2
            rw [hlo]
            simp only [Option.getD_some, analyzeStepDomain, hnp, ite_false, if_false]
            exact ⟨Nat.succ_pos _, hprev.2.1, hprev.2.2⟩
      · rw [if_neg hd] at hs
        exact hacc s hs

/-- C7: for every origin all of whose corpus events have a
non-positive response time, the finalised per-origin rollup reports
`min_time = 0` and `max_time = 0` — the infinity sentinel is always
reset before the Insights value is produced. -/
theorem analyze_origin_without_positive_times (st : LoadState) (d : String)
    (hne : st.all_data ≠ [])
    (hall : ∀ e ∈ st.all_data, e.domain.getD "unknown" = d →
      e.response_time_ms.getD 0 ≤ 0) :
    ∃ i, analyzeData st = some i ∧
      ∀ s, lookupA i.domains_stats d = some s →
        s.min_time = some 0 ∧ s.max_time = 0 := by
  simp only [analyzeData, if_neg hne]
  refine ⟨_, rfl, ?_⟩
  intro s hs
  simp only at hs
  rw [lookupA_map_finalize] at hs
  cases hlo : lookupA (st.all_data.foldl analyzeStep ⟨[], [], []⟩).domains_stats d with
  | none => rw [hlo] at hs; cases hs
  | some s0 =>
      rw [hlo] at hs
      have hprops := domains_stats_no_positive st.all_data ⟨[], [], []⟩ d hall
        (by intro x hx; simp [lookupA] at hx) s0 hlo
      have hs2 : s = finalizeDomain s0 := (Option.some.injEq _ _ ▸ hs).symm
      subst hs2
      simp [finalizeDomain, hprops.1, hprops.2.1, hprops.2.2, round2_zero]

/-- Witness for the C7 theorem: one event of origin `a.com` with
response time `0`. -/
theorem analyze_origin_without_positive_times_witness :
    ∃ i, analyzeData ⟨[sampleEventA], [], []⟩ = some i ∧
      ∀ s, lookupA i.domains_stats "a.com" = some s →
        s.min_time = some 0 ∧ s.max_time = 0 :=
  analyze_origin_without_positive_times ⟨[sampleEventA], [], []⟩ "a.com"
    (by decide) (by decide)

/-- The positive response times of a corpus, in corpus order: the list
comprehension of report_generator.py:181. -/
def positiveTimes (l : List NetworkEvent) : List ℚ :=
  (l.filter fun r => decide (0 < r.response_time_ms.getD 0)).map
    fun r => r.response_time_ms.getD 0

/-- C6 counterexample: the empty corpus is a corpus in which no event
has a positive response time, yet `analyze_data` produces no statistics
at all (`return {}`), so "all four statistics are 0" fails there. -/
theorem timing_stats_absent_on_empty_corpus :
    (∀ e ∈ emptyLoadState.all_data, e.response_time_ms.getD 0 ≤ 0) ∧
    analyzeData emptyLoadState = none :=
  ⟨by simp [emptyLoadState], rfl⟩

/-- C6 (amended): for every nonempty corpus the four global timing
statistics are computed over exactly the events with a strictly
positive `response_time_ms`, and when no event qualifies all four are
`0` — never `NaN`, never an infinity sentinel.  (For the empty corpus
`analyze_data` produces no statistics at all.) -/
theorem analyze_timing_stats_positive_only (st : LoadState) (hne : st.all_data ≠ []) :
    ∃ i, analyzeData st = some i ∧
      i.avg_response_time =
        (if positiveTimes st.all_data = [] then 0 else round2 (pymean (positiveTimes st.all_data))) ∧
      i.median_response_time =
        (if positiveTimes st.all_data = [] then 0 else round2 (pymedian (positiveTimes st.all_data))) ∧
      i.max_response_time =
        (if positiveTimes st.all_data = [] then 0 else pymax (positiveTimes st.all_data)) ∧
      i.min_response_time =
        (if positiveTimes st.all_data = [] then 0 else pymin (positiveTimes st.all_data)) ∧
      ((∀ e ∈ st.all_data, e.response_time_ms.getD 0 ≤ 0) →
        i.avg_response_time = 0 ∧ i.median_response_time = 0 ∧
        i.max_response_time = 0 ∧ i.min_response_time = 0) := by
  simp only [analyzeData, if_neg hne]
  refine ⟨_, rfl, rfl, rfl, rfl, rfl, ?_⟩
  intro hall
  have hf : (st.all_data.filter fun r => decide (0 < r.response_time_ms.getD 0)) = [] :=
    List.filter_eq_nil_iff.mpr fun e he => by simpa using not_lt.mpr (hall e he)
  have hts : (st.all_data.filter fun r => decide (0 < r.response_time_ms.getD 0)).map
      (fun r => r.response_time_ms.getD 0) = [] := by
    simp [hf]
  refine ⟨?_, ?_, ?_, ?_⟩ <;> simp [hts]

/-- Witness for the C6 theorem: a one-event corpus whose only response
time is `0`. -/
theorem analyze_timing_stats_positive_only_witness :
    ∃ i, analyzeData ⟨[sampleEventB], [], []⟩ = some i ∧
      i.avg_response_time =
        (if positiveTimes [sampleEventB] = [] then 0
         else round2 (pymean (positiveTimes [sampleEventB]))) ∧
      i.median_response_time =
        (if positiveTimes [sampleEventB] = [] then 0
         else round2 (pymedian (positiveTimes [sampleEventB]))) ∧
      i.max_response_time =
        (if positiveTimes [sampleEventB] = [] then 0 else pymax (positiveTimes [sampleEventB])) ∧
      i.min_response_time =
        (if positiveTimes [sampleEventB] = [] then 0 else pymin (positiveTimes [sampleEventB])) ∧
      ((∀ e ∈ ([sampleEventB] : List NetworkEvent), e.response_time_ms.getD 0 ≤ 0) →
        i.avg_response_time = 0 ∧ i.median_response_time = 0 ∧
        i.max_response_time = 0 ∧ i.min_response_time = 0) :=
  analyze_timing_stats_positive_only ⟨[sampleEventB], [], []⟩ (by decide)

/-- The sort key of the slowest-requests ranking:
`x.get('response_time_ms', 0)` (report_generator.py:249). -/
def timeKey (r : NetworkEvent) : ℚ := r.response_time_ms.getD 0

/-- The sort key of the largest-requests ranking:
`x.get('response_size', 0)` (report_generator.py:250). -/
def sizeKey (r : NetworkEvent) : ℚ := r.response_size.getD 0

/-- Inserting into the descending sort is a permutation. -/
theorem insDesc_perm {α : Type} (k : α → ℚ) (e : α) (l : List α) :
    (insDesc k e l).Perm (e :: l) := by
  induction l with
  | nil => simp [insDesc]
  | cons x xs ih =>
      by_cases h : k e < k x
      · simp only [insDesc, h, if_true]
        exact (ih.cons x).trans (List.Perm.swap e x xs)
      · simp [insDesc, h]

/-- The descending sort is a permutation of its input. -/
theorem sortDescBy_perm {α : Type} (k : α → ℚ) (l : List α) :
    (sortDescBy k l).Perm l := by
  induction l with
  | nil => simp [sortDescBy]
  | cons e l ih => exact (insDesc_perm k e (sortDescBy k l)).trans (ih.cons e)

/-- Inserting into a descending-sorted list keeps it sorted. -/
theorem insDesc_pairwise {α : Type} (k : α → ℚ) (e : α) (l : List α)
    (h : l.Pairwise fun a b => k b ≤ k a) :
    (insDesc k e l).Pairwise fun a b => k b ≤ k a := by
  induction l with
  | nil => simp [insDesc]
  | cons x xs ih =>
      obtain ⟨hx, hxs⟩ := List.pairwise_cons.mp h
      by_cases hc : k e < k x
      · simp only [insDesc, hc, if_true]
        refine List.pairwise_cons.mpr ⟨?_, ih hxs⟩
        intro b hb
        rcases List.mem_cons.mp ((insDesc_perm k e xs).mem_iff.mp hb) with rfl | hbxs
        · exact le_of_lt hc
        · exact hx b hbxs
      · simp only [insDesc, hc, if_false]
        refine List.pairwise_cons.mpr ⟨?_, h⟩
        intro b hb
        rcases List.mem_cons.mp hb with rfl | hbxs
        · exact not_lt.mp hc
        · exact le_trans (hx b hbxs) (not_lt.mp hc)

/-- The descending sort is sorted: keys never increase left to right. -/
theorem sortDescBy_pairwise {α : Type} (k : α → ℚ) (l : List α) :
    (sortDescBy k l).Pairwise fun a b => k b ≤ k a := by
  induction l with
  | nil => simp [sortDescBy]
  | cons e l ih => exact insDesc_pairwise k e (sortDescBy k l) ih

/-- Insertion never reorders elements of any fixed key `v`: the
inserted element passes only over strictly larger keys, so it lands in
front of every equal-keyed element. -/
theorem insDesc_filter_key {α : Type} (k : α → ℚ) (v : ℚ) (e : α) (l : List α) :
    (insDesc k e l).filter (fun x => decide (k x = v)) =
      if k e = v then e :: l.filter (fun x => decide (k x = v))
      else l.filter (fun x => decide (k x = v)) := by
  induction l with
  | nil => by_cases h : k e = v <;> simp [insDesc, h]
  | cons x xs ih =>
      by_cases hc : k e < k x
      · have h1 : insDesc k e (x :: xs) = x :: insDesc k e xs := by simp [insDesc, hc]
        rw [h1]
        by_cases hx : k x = v
        · have hev : ¬k e = v := by rw [← hx]; exact ne_of_lt hc
          simp [List.filter_cons, hx, hev, ih]
        · by_cases he : k e = v <;> simp [List.filter_cons, hx, he, ih]
      · have h1 : insDesc k e (x :: xs) = e :: x :: xs := by simp [insDesc, hc]
        rw [h1]
        by_cases he : k e = v <;> simp [List.filter_cons, he]

/-- Stability of the descending sort: for every key value, the
elements carrying that key appear in the sorted output in their
original input order. -/
theorem sortDescBy_filter_key {α : Type} (k : α → ℚ) (v : ℚ) (l : List α) :
    (sortDescBy k l).filter (fun x => decide (k x = v)) =
      l.filter (fun x => decide (k x = v)) := by
  induction l with
  | nil => simp [sortDescBy]
  | cons e l ih =>
      have h1 : sortDescBy k (e :: l) = insDesc k e (sortDescBy k l) := rfl
      rw [h1, insDesc_filter_key]
      by_cases he : k e = v <;> simp [List.filter_cons, he, ih]

/-- In a descending-sorted list every kept element's key dominates
every dropped element's key. -/
theorem pairwise_take_le_drop {α : Type} (k : α → ℚ) (l : List α) (n : ℕ)
    (h : l.Pairwise fun a b => k b ≤ k a) :
    ∀ a ∈ l.take n, ∀ b ∈ l.drop n, k b ≤ k a := by
  have h2 : (l.take n ++ l.drop n).Pairwise (fun a b => k b ≤ k a) := by
    rwa [List.take_append_drop]
  exact fun a ha b hb => (List.pairwise_append.mp h2).2.2 a ha b hb

/-- C5 counterexample: on the empty corpus `analyze_data` returns the
empty dictionary (`none`), so no slowest- or largest-requests ranking
of length `min 10 0 = 0` is produced at all — the claim's "for any
corpus" fails at the empty corpus. -/
theorem rankings_absent_on_empty_corpus :
    analyzeData emptyLoadState = none ∧
    ¬∃ i, analyzeData emptyLoadState = some i ∧
      i.slowest_requests.length = min 10 emptyLoadState.all_data.length ∧
      i.largest_requests.length = min 10 emptyLoadState.all_data.length := by
  refine ⟨rfl, ?_⟩
  rintro ⟨i, hi, -⟩
  have hn : analyzeData emptyLoadState = none := rfl
  rw [hn] at hi
  cases hi

/-- C5 (amended): for every nonempty corpus, the slowest-requests
ranking is the first ten elements of the stable descending sort of the
full corpus by `response_time_ms` (`sorted(..., reverse=True)[:10]`):
it has length `min 10 |corpus|`; the underlying sort is a permutation
of the corpus, is descending, and is stable (for every key value the
elements carrying it keep their corpus order); and every ranked
element's key dominates every excluded element's key.  The same holds
for the largest-requests ranking by `response_size`.  (For the empty
corpus `analyze_data` returns the empty mapping and produces no
rankings at all.) -/
theorem analyze_rankings_top10 (st : LoadState) (hne : st.all_data ≠ []) :
    ∃ i, analyzeData st = some i ∧
      (i.slowest_requests = (sortDescBy timeKey st.all_data).take 10 ∧
       i.slowest_requests.length = min 10 st.all_data.length ∧
       (sortDescBy timeKey st.all_data).Perm st.all_data ∧
       (sortDescBy timeKey st.all_data).Pairwise (fun a b => timeKey b ≤ timeKey a) ∧
       (∀ v, (sortDescBy timeKey st.all_data).filter (fun x => decide (timeKey x = v)) =
         st.all_data.filter fun x => decide (timeKey x = v)) ∧
       (∀ a ∈ i.slowest_requests, ∀ b ∈ (sortDescBy timeKey st.all_data).drop 10,
         timeKey b ≤ timeKey a)) ∧
      (i.largest_requests = (sortDescBy sizeKey st.all_data).take 10 ∧
       i.largest_requests.length = min 10 st.all_data.length ∧
       (sortDescBy sizeKey st.all_data).Perm st.all_data ∧
       (sortDescBy sizeKey st.all_data).Pairwise (fun a b => sizeKey b ≤ sizeKey a) ∧
       (∀ v, (sortDescBy sizeKey st.all_data).filter (fun x => decide (sizeKey x = v)) =
         st.all_data.filter fun x => decide (sizeKey x = v)) ∧
       (∀ a ∈ i.largest_requests, ∀ b ∈ (sortDescBy sizeKey st.all_data).drop 10,
         sizeKey b ≤ sizeKey a)) := by
  simp only [analyzeData, if_neg hne]
  refine ⟨_, rfl, ⟨rfl, ?_, sortDescBy_perm timeKey st.all_data,
      sortDescBy_pairwise timeKey st.all_data, fun v => sortDescBy_filter_key timeKey v _, ?_⟩,
    ⟨rfl, ?_, sortDescBy_perm sizeKey st.all_data,
      sortDescBy_pairwise sizeKey st.all_data, fun v => sortDescBy_filter_key sizeKey v _, ?_⟩⟩
  · show ((sortDescBy timeKey st.all_data).take 10).length = min 10 st.all_data.length
    rw [List.length_take, (sortDescBy_perm timeKey st.all_data).length_eq]
  · intro a ha b hb
    exact pairwise_take_le_drop timeKey _ 10 (sortDescBy_pairwise timeKey st.all_data) a ha b hb
  · show ((sortDescBy sizeKey st.all_data).take 10).length = min 10 st.all_data.length
    rw [List.length_take, (sortDescBy_perm sizeKey st.all_data).length_eq]
  · intro a ha b hb
    exact pairwise_take_le_drop sizeKey _ 10 (sortDescBy_pairwise sizeKey st.all_data) a ha b hb

/-- Witness for the C5 theorem at a concrete two-event corpus. -/
theorem analyze_rankings_top10_witness :
    ∃ i, analyzeData ⟨[sampleEventA, sampleEventB], [], []⟩ = some i ∧
      (i.slowest_requests = (sortDescBy timeKey [sampleEventA, sampleEventB]).take 10 ∧
       i.slowest_requests.length = min 10 ([sampleEventA, sampleEventB] : List NetworkEvent).length ∧
       (sortDescBy timeKey [sampleEventA, sampleEventB]).Perm [sampleEventA, sampleEventB] ∧
       (sortDescBy timeKey [sampleEventA, sampleEventB]).Pairwise
         (fun a b => timeKey b ≤ timeKey a) ∧
       (∀ v, (sortDescBy timeKey [sampleEventA, sampleEventB]).filter
           (fun x => decide (timeKey x = v)) =
         ([sampleEventA, sampleEventB] : List NetworkEvent).filter fun x => decide (timeKey x = v)) ∧
       (∀ a ∈ i.slowest_requests,
         ∀ b ∈ (sortDescBy timeKey [sampleEventA, sampleEventB]).drop 10,
           timeKey b ≤ timeKey a)) ∧
      (i.largest_requests = (sortDescBy sizeKey [sampleEventA, sampleEventB]).take 10 ∧
       i.largest_requests.length = min 10 ([sampleEventA, sampleEventB] : List NetworkEvent).length ∧
       (sortDescBy sizeKey [sampleEventA, sampleEventB]).Perm [sampleEventA, sampleEventB] ∧
       (sortDescBy sizeKey [sampleEventA, sampleEventB]).Pairwise
         (fun a b => sizeKey b ≤ sizeKey a) ∧
       (∀ v, (sortDescBy sizeKey [sampleEventA, sampleEventB]).filter
           (fun x => decide (sizeKey x = v)) =
         ([sampleEventA, sampleEventB] : List NetworkEvent).filter fun x => decide (sizeKey x = v)) ∧
       (∀ a ∈ i.largest_requests,
         ∀ b ∈ (sortDescBy sizeKey [sampleEventA, sampleEventB]).drop 10,
           sizeKey b ≤ sizeKey a)) :=
  analyze_rankings_top10 ⟨[sampleEventA, sampleEventB], [], []⟩ (by decide)

/-- C10: every event produced by the capture path carries the
hard-coded `status = 200` and `method = 'GET'` whatever the real
request outcome was, and therefore on any corpus consisting solely of
captured events the `failed_requests` set (`status >= 400`) is empty. -/
theorem capture_status_hardcoded_no_failures (now : String) (entries : List RawEntry)
    (st : LoadState)
    (hsrc : ∀ e ∈ st.all_data, ∃ nw es, e ∈ getNetworkRequests nw es)
    (hne : st.all_data ≠ []) :
    (∀ e ∈ getNetworkRequests now entries, e.status = some 200 ∧ e.method = "GET") ∧
    ∃ i, analyzeData st = some i ∧ i.failed_requests = [] := by
  constructor
  · intro e he
    obtain ⟨x, _, rfl⟩ := List.mem_map.mp he
    exact ⟨rfl, rfl⟩
  · simp only [analyzeData, if_neg hne]
    refine ⟨_, rfl, ?_⟩
    show (st.all_data.filter fun r => decide (400 ≤ r.status.getD 200)) = []
    rw [List.filter_eq_nil_iff]
    intro e he
    obtain ⟨nw, es, hmem⟩ := hsrc e he
    obtain ⟨x, _, rfl⟩ := List.mem_map.mp hmem
    simp [entryToEvent]

/-- A concrete raw performance entry. -/
def rawA : RawEntry := ⟨"https://a.com/x", "img", 0, 0, 0, 0, "resource", 0, "idA"⟩

/-- Witness for the C10 theorem: a corpus holding one captured event. -/
theorem capture_status_hardcoded_no_failures_witness :
    (∀ e ∈ getNetworkRequests "T" [rawA], e.status = some 200 ∧ e.method = "GET") ∧
    ∃ i, analyzeData ⟨[entryToEvent "T" rawA], [], []⟩ = some i ∧ i.failed_requests = [] :=
  capture_status_hardcoded_no_failures "T" [rawA] ⟨[entryToEvent "T" rawA], [], []⟩
    (by
      intro e he
      rcases List.mem_singleton.mp he with rfl
      exact ⟨"T", [rawA], List.Mem.head _⟩)
    (by decide)
